import Mathlib

/-!
Shallow embedding of the `robin` job-queue core
(`src/robin/src/queue_adapters/mod.rs` and
`src/robin/src/queue_adapters/redis_queue.rs`).

Pure Rust functions become Lean functions; the Redis backend is modelled as
an explicit store (a map from key strings to ordered lists of stored
payloads) threaded through the operations.  `u32` values are modelled as
`Nat` with explicit `% 2 ^ 32` wherever the Rust addition can overflow
(release-mode wrap-around semantics).  The `redis`, `serde` and `serde_json`
crates are external dependencies: their documented behaviour is modelled
(Redis list commands as list operations; the derived serde encoding of the
job record as a JSON value tree, the textual layer being a faithful
transport of such trees).  The crate's own `error` and `config` modules are
not part of the given sources; the fragments used here are modelled from
the spec.
-/

namespace Robin

/-- From `mod.rs`: `enum RetryCount { NeverRetried, Count(u32) }`.
The `u32` payload is modelled as `Nat`; arithmetic on it is reduced
`% 2 ^ 32` where the source adds. -/
inductive RetryCount : Type where
  | NeverRetried : RetryCount
  | Count : Nat → RetryCount
deriving DecidableEq, Repr

/-- Width of the Rust `u32` payload of `RetryCount.Count`. -/
def u32Mod : Nat := 2 ^ 32

/-- From `mod.rs`: `RetryCount::increment`.  `NeverRetried` becomes
`Count(1)`; `Count(n)` becomes `Count(n + 1)` where `+` is `u32`
addition, i.e. wrap-around modulo `2 ^ 32`. -/
def RetryCount.increment : RetryCount → RetryCount
  | RetryCount.NeverRetried => RetryCount.Count 1
  | RetryCount.Count n => RetryCount.Count ((n + 1) % u32Mod)

/-- Modelled from the spec: the crate's `Config` (its `config` module is
not among the given sources).  Only the field read by this core appears:
`retry_count_limit`, the retry-count limit integer. -/
structure Config : Type where
  retry_count_limit : Nat
deriving DecidableEq, Repr

/-- From `mod.rs`: `RetryCount::limit_reached`.  `false` for
`NeverRetried`; for `Count(n)` it is the comparison `n > config.retry_count_limit`. -/
def RetryCount.limit_reached : RetryCount → Config → Bool
  | RetryCount.NeverRetried, _ => false
  | RetryCount.Count n, config => n > config.retry_count_limit

/-- From `mod.rs`: `struct EnqueuedJob { name: String, args: String,
retry_count: RetryCount }`. -/
structure EnqueuedJob : Type where
  name : String
  args : String
  retry_count : RetryCount
deriving DecidableEq, Repr

/-- From `mod.rs`: `enum QueueIdentifier { Main, Retry }`. -/
inductive QueueIdentifier : Type where
  | Main : QueueIdentifier
  | Retry : QueueIdentifier
deriving DecidableEq, Repr

/-- From `mod.rs`: `QueueIdentifier::redis_queue_name`. -/
def QueueIdentifier.redis_queue_name : QueueIdentifier → String
  | QueueIdentifier.Main => "main"
  | QueueIdentifier.Retry => "retry"

/-- Modelled from the spec: the JSON value trees of the textual exchange
format (`serde_json` is an external crate).  Only the fragment the format
uses is represented: strings, non-negative numbers, and objects given as
ordered field lists. -/
inductive Json : Type where
  | str : String → Json
  | num : Nat → Json
  | obj : List (String × Json) → Json

/-- Look a field up by name in a JSON object field list (first match). -/
def Json.lookupField : List (String × Json) → String → Option Json
  | [], _ => none
  | (k, v) :: rest, field => if k = field then some v else Json.lookupField rest field

/-- Modelled from the spec: serde's derived `Serialize` for `RetryCount`
(externally tagged enum encoding): the unit variant `NeverRetried`
serializes as the string `"NeverRetried"`, the newtype variant `Count(n)`
as the one-field object `{"Count": n}`. -/
def encodeRetryCount : Robin.RetryCount → Json
  | Robin.RetryCount.NeverRetried => Json.str "NeverRetried"
  | Robin.RetryCount.Count n => Json.obj [("Count", Json.num n)]

/-- Modelled from the spec: serde's derived `Deserialize` for `RetryCount`,
the partial inverse of the externally tagged encoding. -/
def decodeRetryCount : Json → Option Robin.RetryCount
  | Json.str s => if s = "NeverRetried" then some Robin.RetryCount.NeverRetried else none
  | Json.obj [(tag, Json.num n)] =>
      if tag = "Count" then some (Robin.RetryCount.Count n) else none
  | _ => none

/-- Modelled from the spec: serde's derived `Serialize` for `EnqueuedJob`:
a three-field object `{"name": ..., "args": ..., "retry_count": ...}`. -/
def encodeEnqueuedJob (job : Robin.EnqueuedJob) : Json :=
  Json.obj
    [("name", Json.str job.name),
     ("args", Json.str job.args),
     ("retry_count", encodeRetryCount job.retry_count)]

/-- Modelled from the spec: serde's derived `Deserialize` for
`EnqueuedJob`: the three fields are looked up by name in the object. -/
def decodeEnqueuedJob : Json → Option Robin.EnqueuedJob
  | Json.obj fields =>
      match Json.lookupField fields "name", Json.lookupField fields "args",
          Json.lookupField fields "retry_count" with
      | some (Json.str name), some (Json.str args), some rc =>
          (decodeRetryCount rc).map (fun retry_count =>
            { name := name, args := args, retry_count := retry_count })
      | _, _, _ => none
  | _ => none

/-- Modelled from the spec: the crate's `Error` type (its `error` module is
not among the given sources).  Only the variants this core constructs or
converts into appear: the wrapper for a `serde_json` deserialization error
and `Error::UnknownRedisError(String)`. -/
inductive Error : Type where
  | SerdeJsonError : Error
  | UnknownRedisError : String → Error
deriving DecidableEq, Repr

/-- From `mod.rs`: `enum NoJobDequeued { BecauseTimeout, BecauseError(Error) }`. -/
inductive NoJobDequeued : Type where
  | BecauseTimeout : NoJobDequeued
  | BecauseError : Error → NoJobDequeued
deriving DecidableEq, Repr

/-- True iff `b` is a UTF-8 continuation byte (`0x80 ..= 0xBF`). -/
def utf8Cont (b : Nat) : Bool := 0x80 ≤ b && b < 0xC0

/-- Modelled from the Rust standard library contract of
`String::from_utf8` used by `RedisQueue::dequeue`: strict UTF-8 decoding
of a byte list (overlong encodings, surrogates and code points above
`0x10FFFF` are rejected), yielding the decoded characters or `none`. -/
def utf8DecodeChars : List Nat → Option (List Char)
  | [] => some []
  | b0 :: rest =>
    if b0 < 0x80 then
      (utf8DecodeChars rest).map (fun cs => Char.ofNat b0 :: cs)
    else if b0 < 0xC2 then none
    else if b0 < 0xE0 then
      match rest with
      | b1 :: rest2 =>
        if utf8Cont b1 then
          (utf8DecodeChars rest2).map (fun cs =>
            Char.ofNat ((b0 - 0xC0) * 0x40 + (b1 - 0x80)) :: cs)
        else none
      | [] => none
    else if b0 < 0xF0 then
      match rest with
      | b1 :: b2 :: rest3 =>
        if (if b0 = 0xE0 then 0xA0 ≤ b1 && b1 < 0xC0
            else if b0 = 0xED then 0x80 ≤ b1 && b1 < 0xA0
            else utf8Cont b1) && utf8Cont b2 then
          (utf8DecodeChars rest3).map (fun cs =>
            Char.ofNat (((b0 - 0xE0) * 0x40 + (b1 - 0x80)) * 0x40 + (b2 - 0x80)) :: cs)
        else none
      | _ => none
    else if b0 < 0xF5 then
      match rest with
      | b1 :: b2 :: b3 :: rest4 =>
        if (if b0 = 0xF0 then 0x90 ≤ b1 && b1 < 0xC0
            else if b0 = 0xF4 then 0x80 ≤ b1 && b1 < 0x90
            else utf8Cont b1) && utf8Cont b2 && utf8Cont b3 then
          (utf8DecodeChars rest4).map (fun cs =>
            Char.ofNat ((((b0 - 0xF0) * 0x40 + (b1 - 0x80)) * 0x40
              + (b2 - 0x80)) * 0x40 + (b3 - 0x80)) :: cs)
        else none
      | _ => none
    else none

/-- UTF-8 decoding of a byte list into a `String`, or `none` when the
bytes are not valid UTF-8.  Models `String::from_utf8(...).ok()`. -/
def utf8Decode (bs : List Nat) : Option String :=
  (utf8DecodeChars bs).map (fun cs => String.mk cs)

/-- Modelled from the `redis` crate (external dependency): the
`redis::Value` reply type.  `Data` carries raw bytes. -/
inductive RedisValue : Type where
  | Nil : RedisValue
  | Int : Int → RedisValue
  | Data : List Nat → RedisValue
  | Bulk : List RedisValue → RedisValue
  | Status : String → RedisValue
  | Okay : RedisValue

/-- The possible outcomes of one `dequeue` call, panics included:
the source's return type is `Result<EnqueuedJob, NoJobDequeued>`, and the
`expect` on the UTF-8 conversion adds a panic (process abort) outcome. -/
inductive DequeueOutcome : Type where
  | ok : Robin.EnqueuedJob → DequeueOutcome
  | err : Robin.NoJobDequeued → DequeueOutcome
  | panicked : String → DequeueOutcome
deriving DecidableEq, Repr

/-- The panic message of the `expect` in `RedisQueue::dequeue`. -/
def utf8PanicMsg : String := "Didn\x27t get valid UTF-8 from Redis"

/-- The diagnostic of the catch-all arm of `RedisQueue::dequeue`. -/
def unexpectedReplyMsg : String := "List didn\x27t contain what we were expecting"

/-- From `redis_queue.rs`: the `match bulk.get(1)` classification inside
`RedisQueue::dequeue`, over the raw reply `bulk` of the blocking pop.
`parse` stands for `serde_json::from_str::<EnqueuedJob>`, the external
deserializer applied to the UTF-8-decoded payload; a `None` from it
models a `serde_json::Error`, converted into `BecauseError`.  The first
arm matches `Some(&Value::Data(ref data))`, the second `None`, and the
third is the catch-all `_`. -/
def dequeueFromBulk (parse : String → Option Robin.EnqueuedJob)
    (bulk : List RedisValue) : DequeueOutcome :=
  match bulk[1]? with
  | some (RedisValue.Data data) =>
    match utf8Decode data with
    | none => DequeueOutcome.panicked utf8PanicMsg
    | some s =>
      match parse s with
      | some job => DequeueOutcome.ok job
      | none => DequeueOutcome.err (Robin.NoJobDequeued.BecauseError Robin.Error.SerdeJsonError)
  | none => DequeueOutcome.err Robin.NoJobDequeued.BecauseTimeout
  | some _ =>
      DequeueOutcome.err
        (Robin.NoJobDequeued.BecauseError (Robin.Error.UnknownRedisError unexpectedReplyMsg))

/-- Modelled from the `redis` crate contract: the backing store, a map
from key strings to the ordered list of stored payloads.  Payloads are
kept at the JSON-value level (the textual layer of `serde_json` is a
faithful transport of such trees; `json!(x).to_string()` always produces
valid UTF-8). -/
def Store : Type := String → List Json

/-- A store with every list empty (a fresh backend). -/
def Store.empty : Store := fun _ => []

/-- Redis `RPUSH`: append one payload to the tail of the list at `k`. -/
def Store.rpush (st : Store) (k : String) (v : Json) : Store :=
  fun k2 => if k2 = k then st k2 ++ [v] else st k2

/-- Redis `DEL`: remove the key, leaving an empty list. -/
def Store.del (st : Store) (k : String) : Store :=
  fun k2 => if k2 = k then [] else st k2

/-- Redis `LLEN`: the length of the list at `k`. -/
def Store.llen (st : Store) (k : String) : Nat := (st k).length

/-- Redis `BLPOP`: atomically remove and return the head of the list at
`k`; `none` models the timeout reply (empty bulk, no index-1 element). -/
def Store.blpop (st : Store) (k : String) : Option Json × Store :=
  match st k with
  | [] => (none, st)
  | v :: rest => (some v, fun k2 => if k2 = k then rest else st k2)

/-- From `redis_queue.rs`: `struct RedisQueue`.  Only the `key` field (the
configured namespace prefix, set from `RedisConfig.namespace` by `new`) is
carried; the connection is replaced by the explicit `Store` threaded
through the operations. -/
structure RedisQueue : Type where
  key : String

/-- From `redis_queue.rs`: the private method `RedisQueue::key`,
`format!("{}_{}", self.key, iden.redis_queue_name())`.  (Named `keyFor`
because the structure field already takes the source name `key`.) -/
def RedisQueue.keyFor (q : RedisQueue) (iden : Robin.QueueIdentifier) : String :=
  q.key ++ "_" ++ iden.redis_queue_name

/-- From `redis_queue.rs`: `RedisQueue::enqueue` — serialize the job
(`json!(enq_job).to_string()`) and `RPUSH` it onto the list at
`self.key(iden)`. -/
def RedisQueue.enqueue (q : RedisQueue) (enq_job : Robin.EnqueuedJob)
    (iden : Robin.QueueIdentifier) (st : Store) : Store :=
  st.rpush (q.keyFor iden) (encodeEnqueuedJob enq_job)

/-- From `redis_queue.rs`: `RedisQueue::dequeue` at the store level —
`BLPOP` on `self.key(iden)`, then the reply classification of
`dequeueFromBulk`.  A timeout reply has no index-1 element and becomes
`BecauseTimeout`; a popped payload sits at index 1 of the two-element
reply `[key, payload]`, its UTF-8 decoding cannot fail because payloads
are written by `enqueue` as Rust strings, and `serde_json::from_str` is
modelled by `decodeEnqueuedJob`, a failure becoming `BecauseError`. -/
def RedisQueue.dequeue (q : RedisQueue) (iden : Robin.QueueIdentifier)
    (st : Store) : Except Robin.NoJobDequeued Robin.EnqueuedJob × Store :=
  match st.blpop (q.keyFor iden) with
  | (none, st2) => (Except.error Robin.NoJobDequeued.BecauseTimeout, st2)
  | (some payload, st2) =>
    match decodeEnqueuedJob payload with
    | some job => (Except.ok job, st2)
    | none =>
        (Except.error (Robin.NoJobDequeued.BecauseError Robin.Error.SerdeJsonError), st2)

/-- From `redis_queue.rs`: `RedisQueue::delete_all` — `DEL` on
`self.key(iden)`. -/
def RedisQueue.delete_all (q : RedisQueue) (iden : Robin.QueueIdentifier)
    (st : Store) : Store :=
  st.del (q.keyFor iden)

/-- From `redis_queue.rs`: `RedisQueue::size` — `LLEN` on
`self.key(iden)`. -/
def RedisQueue.size (q : RedisQueue) (iden : Robin.QueueIdentifier)
    (st : Store) : Nat :=
  st.llen (q.keyFor iden)

/-- Enqueue a list of jobs in order (iterated `RedisQueue.enqueue`). -/
def RedisQueue.enqueueAll (q : RedisQueue) (iden : Robin.QueueIdentifier)
    (jobs : List Robin.EnqueuedJob) (st : Store) : Store :=
  jobs.foldl (fun s job => q.enqueue job iden s) st

/-- Dequeue `n` times in sequence, collecting the results in order. -/
def RedisQueue.drain (q : RedisQueue) (iden : Robin.QueueIdentifier) :
    Nat → Store → List (Except Robin.NoJobDequeued Robin.EnqueuedJob) × Store
  | 0, st => ([], st)
  | n + 1, st =>
    let step := q.dequeue iden st
    let rest := q.drain iden n step.2
    (step.1 :: rest.1, rest.2)

/-- True iff the reply has an element at index 1 and that element is a
`Data` value whose bytes are not valid UTF-8 — the inputs on which the
`expect` inside `RedisQueue::dequeue` panics. -/
def dataAt1InvalidUtf8 (bulk : List RedisValue) : Bool :=
  match bulk[1]? with
  | some (RedisValue.Data bs) => (utf8Decode bs).isNone
  | _ => false

/-- True iff the reply has an element at index 1 and that element is
not a `Data` value — the inputs taken by the catch-all arm of
`RedisQueue::dequeue`. -/
def secondElemNonData (bulk : List RedisValue) : Bool :=
  match bulk[1]? with
  | some (RedisValue.Data _) => false
  | some _ => true
  | none => false

/-! ## Helper lemmas (shared) -/

/-- Decoding inverts encoding for the job record. -/
theorem decode_encode (job : Robin.EnqueuedJob) :
    decodeEnqueuedJob (encodeEnqueuedJob job) = some job := by
  obtain ⟨name, args, rc⟩ := job
  cases rc <;> rfl

/-- Iterating `increment` on a `Count` below the wrap boundary adds the
iteration count. -/
theorem increment_iterate_count (m : Nat) :
    ∀ n : Nat, n + m < u32Mod →
      Robin.RetryCount.increment^[m] (Robin.RetryCount.Count n) = Robin.RetryCount.Count (n + m) := by
  induction m with
  | zero => intro n _; simp
  | succ m ih =>
    intro n h
    rw [Function.iterate_succ_apply]
    have h1 : n + 1 < u32Mod := by omega
    have : Robin.RetryCount.increment (Robin.RetryCount.Count n) = Robin.RetryCount.Count (n + 1) := by
      simp [Robin.RetryCount.increment, Nat.mod_eq_of_lt h1]
    rw [this, ih (n + 1) (by omega)]
    congr 1
    omega

/-- The reply match panics exactly on a `Data` element at index 1 whose
bytes are not valid UTF-8, with the `expect` message. -/
theorem dequeue_panicked_iff (parse : String → Option Robin.EnqueuedJob)
    (bulk : List RedisValue) (msg : String) :
    dequeueFromBulk parse bulk = DequeueOutcome.panicked msg ↔
      (msg = utf8PanicMsg ∧ dataAt1InvalidUtf8 bulk = true) := by
  constructor
  · intro h
    rcases hg : bulk[1]? with _ | v
    · simp [dequeueFromBulk, hg] at h
    · cases v with
      | Data bs =>
        rcases hu : utf8Decode bs with _ | s
        · simp [dequeueFromBulk, hg, hu] at h
          exact ⟨h.symm, by simp [dataAt1InvalidUtf8, hg, hu]⟩
        · rcases hp : parse s with _ | job <;> simp [dequeueFromBulk, hg, hu, hp] at h
      | Nil => simp [dequeueFromBulk, hg] at h
      | Int i => simp [dequeueFromBulk, hg] at h
      | Bulk vs => simp [dequeueFromBulk, hg] at h
      | Status s => simp [dequeueFromBulk, hg] at h
      | Okay => simp [dequeueFromBulk, hg] at h
  · rintro ⟨rfl, h⟩
    rcases hg : bulk[1]? with _ | v
    · simp [dataAt1InvalidUtf8, hg] at h
    · cases v with
      | Data bs =>
        rcases hu : utf8Decode bs with _ | s
        · simp [dequeueFromBulk, hg, hu]
        · simp [dataAt1InvalidUtf8, hg, hu] at h
      | Nil => simp [dataAt1InvalidUtf8, hg] at h
      | Int i => simp [dataAt1InvalidUtf8, hg] at h
      | Bulk vs => simp [dataAt1InvalidUtf8, hg] at h
      | Status s => simp [dataAt1InvalidUtf8, hg] at h
      | Okay => simp [dataAt1InvalidUtf8, hg] at h

/-! ## Claim theorems -/

/-- C1: For every configured limit, `RetryCount.limit_reached` returns
`false` for `NeverRetried`, `false` for `Count(n)` when `n ≤ limit`, and
`true` for `Count(n)` exactly when `n > limit`. -/
theorem limit_reached_spec :
    (∀ config : Config, Robin.RetryCount.limit_reached Robin.RetryCount.NeverRetried config = false) ∧
    (∀ config : Config, ∀ n : Nat, n ≤ config.retry_count_limit →
      Robin.RetryCount.limit_reached (Robin.RetryCount.Count n) config = false) ∧
    (∀ config : Config, ∀ n : Nat,
      Robin.RetryCount.limit_reached (Robin.RetryCount.Count n) config = true ↔
        n > config.retry_count_limit) := by
  refine ⟨fun _ => rfl, fun config n h => ?_, fun config n => ?_⟩
  · simp [Robin.RetryCount.limit_reached]
    omega
  · simp [Robin.RetryCount.limit_reached]

/-- Witness for C1: with limit 2, a job retried 2 times has not reached
the limit. -/
theorem limit_reached_spec_witness :
    Robin.RetryCount.limit_reached (Robin.RetryCount.Count 2) ⟨2⟩ = false :=
  limit_reached_spec.2.1 ⟨2⟩ 2 (by decide)

/-- C2 counterexample: at the `u32` maximum the increment wraps, so
`Count(n)` does not go to `Count(n + 1)` there: incrementing
`Count(2 ^ 32 - 1)` yields `Count(0)`, not `Count(2 ^ 32)`. -/
theorem increment_count_u32_max_not_succ :
    Robin.RetryCount.increment (Robin.RetryCount.Count (2 ^ 32 - 1)) ≠
      Robin.RetryCount.Count (2 ^ 32 - 1 + 1) := by
  simp [Robin.RetryCount.increment, u32Mod]

/-- C2 (amended): `increment` maps `NeverRetried` to `Count(1)` and
`Count(n)` to `Count(n + 1)` whenever `n + 1 < 2 ^ 32` (at the `u32`
boundary it wraps); consequently, for every `k` with `1 ≤ k < 2 ^ 32`,
applying `increment` `k` times to `NeverRetried` yields `Count(k)`, and
`0` applications leave `NeverRetried`. -/
theorem increment_spec_amended :
    Robin.RetryCount.increment Robin.RetryCount.NeverRetried = Robin.RetryCount.Count 1 ∧
    (∀ n : Nat, n + 1 < 2 ^ 32 →
      Robin.RetryCount.increment (Robin.RetryCount.Count n) = Robin.RetryCount.Count (n + 1)) ∧
    Robin.RetryCount.increment^[0] Robin.RetryCount.NeverRetried = Robin.RetryCount.NeverRetried ∧
    (∀ k : Nat, 1 ≤ k → k < 2 ^ 32 →
      Robin.RetryCount.increment^[k] Robin.RetryCount.NeverRetried = Robin.RetryCount.Count k) := by
  refine ⟨rfl, fun n h => ?_, rfl, fun k h1 h2 => ?_⟩
  · simp [Robin.RetryCount.increment, u32Mod]
    omega
  · obtain ⟨m, rfl⟩ := Nat.exists_eq_add_of_le h1
    rw [Nat.add_comm, Function.iterate_succ_apply]
    have : Robin.RetryCount.increment Robin.RetryCount.NeverRetried = Robin.RetryCount.Count 1 := rfl
    rw [this, increment_iterate_count m 1 (by simpa [u32Mod, Nat.add_comm] using h2)]
    congr 1
    omega

/-- Witness for C2 (amended): three increments of `NeverRetried` give
`Count(3)`. -/
theorem increment_spec_amended_witness :
    Robin.RetryCount.increment^[3] Robin.RetryCount.NeverRetried = Robin.RetryCount.Count 3 :=
  increment_spec_amended.2.2.2 3 (by decide) (by norm_num)

/-- C10: the retry counter lives in a `u32`: below the width boundary
`increment` adds one, and at `n = 2 ^ 32 - 1` the wrap-around addition
yields `Count(0)` — the counter is not monotonically non-decreasing past
the boundary. -/
theorem count_u32_wraparound :
    (∀ n : Nat, n < 2 ^ 32 - 1 →
      Robin.RetryCount.increment (Robin.RetryCount.Count n) = Robin.RetryCount.Count (n + 1)) ∧
    Robin.RetryCount.increment (Robin.RetryCount.Count (2 ^ 32 - 1)) =
      Robin.RetryCount.Count ((2 ^ 32 - 1 + 1) % 2 ^ 32) ∧
    Robin.RetryCount.increment (Robin.RetryCount.Count (2 ^ 32 - 1)) = Robin.RetryCount.Count 0 := by
  refine ⟨fun n h => ?_, rfl, ?_⟩
  · simp [Robin.RetryCount.increment, u32Mod]
    omega
  · simp [Robin.RetryCount.increment, u32Mod]

/-- Witness for C10: below the boundary, incrementing `Count(7)` gives
`Count(8)`. -/
theorem count_u32_wraparound_witness :
    Robin.RetryCount.increment (Robin.RetryCount.Count 7) = Robin.RetryCount.Count 8 :=
  count_u32_wraparound.1 7 (by norm_num)

/-- C3: serializing a job record as `enqueue` does and deserializing it
as `dequeue` does returns the record unchanged: same `name`, same `args`,
and the same `retry_count` value. -/
theorem enqueued_job_roundtrip :
    ∀ job : Robin.EnqueuedJob,
      decodeEnqueuedJob (encodeEnqueuedJob job) = some job :=
  decode_encode

/-- C6: the backend key is exactly `namespace ++ "_" ++ suffix`, with
`Main ↦ "main"` and `Retry ↦ "retry"`; the key depends only on the pair
(namespace, identifier) — the model's `keyFor` reads no store state — and
for a fixed namespace the `Main` and `Retry` keys never collide. -/
theorem key_derivation_spec :
    (∀ q : RedisQueue, ∀ iden : QueueIdentifier,
      q.keyFor iden = q.key ++ "_" ++ iden.redis_queue_name) ∧
    Robin.QueueIdentifier.redis_queue_name Robin.QueueIdentifier.Main = "main" ∧
    Robin.QueueIdentifier.redis_queue_name Robin.QueueIdentifier.Retry = "retry" ∧
    (∀ q : RedisQueue,
      q.keyFor Robin.QueueIdentifier.Main ≠ q.keyFor Robin.QueueIdentifier.Retry) ∧
    (∀ q1 q2 : RedisQueue, ∀ iden : QueueIdentifier,
      q1.key = q2.key → q1.keyFor iden = q2.keyFor iden) := by
  refine ⟨fun _ _ => rfl, rfl, rfl, fun q h => ?_, fun q1 q2 iden h => ?_⟩
  · have := congrArg String.length h
    simp [RedisQueue.keyFor, Robin.QueueIdentifier.redis_queue_name,
      String.length_append] at this
    exact absurd this (by decide)
  · simp [RedisQueue.keyFor, h]

/-- Witness for C6: two queue handles over the namespace `"robin"`
derive the same key for `Main`. -/
theorem key_derivation_spec_witness :
    RedisQueue.keyFor ⟨"robin"⟩ Robin.QueueIdentifier.Main =
      RedisQueue.keyFor ⟨"robin"⟩ Robin.QueueIdentifier.Main :=
  key_derivation_spec.2.2.2.2 ⟨"robin"⟩ ⟨"robin"⟩ Robin.QueueIdentifier.Main rfl

/-- C4 counterexample: a two-element reply (list key, payload) whose
payload bytes are not valid UTF-8 is not classified into any of the three
claimed outcomes — the `expect` panics instead. -/
theorem dequeue_invalid_utf8_not_classified :
    dequeueFromBulk (fun _ => none)
        [RedisValue.Data [107, 101, 121], RedisValue.Data [255]] =
      DequeueOutcome.panicked utf8PanicMsg := by
  rfl

/-- C4 (amended): every backend reply whose index-1 payload, when it is a
`Data` value, is valid UTF-8 falls into exactly one of three outcomes: a
two-element reply (list key, payload) is deserialized into a job, a
deserialization failure surfacing as `BecauseError`; no reply within the
timeout yields `BecauseTimeout`; any other malformed reply shape yields
`BecauseError` with the unexpected-backend-response diagnostic.  (A
two-element reply whose payload is not valid UTF-8 instead panics.) -/
theorem dequeue_reply_classified_amended :
    ∀ (parse : String → Option Robin.EnqueuedJob) (bulk : List RedisValue),
    (bulk[1]? = none →
      dequeueFromBulk parse bulk = DequeueOutcome.err Robin.NoJobDequeued.BecauseTimeout) ∧
    (secondElemNonData bulk = true →
      dequeueFromBulk parse bulk =
        DequeueOutcome.err
          (Robin.NoJobDequeued.BecauseError (Robin.Error.UnknownRedisError unexpectedReplyMsg))) ∧
    (∀ bs s, bulk[1]? = some (RedisValue.Data bs) → utf8Decode bs = some s →
      (parse s = none →
        dequeueFromBulk parse bulk =
          DequeueOutcome.err (Robin.NoJobDequeued.BecauseError Robin.Error.SerdeJsonError)) ∧
      (∀ job, parse s = some job → dequeueFromBulk parse bulk = DequeueOutcome.ok job)) := by
  intro parse bulk
  refine ⟨fun h => ?_, fun h => ?_, fun bs s h1 h2 => ⟨fun hp => ?_, fun job hp => ?_⟩⟩
  · simp [dequeueFromBulk, h]
  · rcases hg : bulk[1]? with _ | v
    · simp [secondElemNonData, hg] at h
    · cases v with
      | Data bs => simp [secondElemNonData, hg] at h
      | Nil => simp [dequeueFromBulk, hg]
      | Int i => simp [dequeueFromBulk, hg]
      | Bulk vs => simp [dequeueFromBulk, hg]
      | Status s => simp [dequeueFromBulk, hg]
      | Okay => simp [dequeueFromBulk, hg]
  · simp [dequeueFromBulk, h1, h2, hp]
  · simp [dequeueFromBulk, h1, h2, hp]

/-- Witness for C4 (amended): a two-element reply with the valid-UTF-8
payload `"a"` that fails deserialization surfaces as `BecauseError`. -/
theorem dequeue_reply_classified_amended_witness :
    dequeueFromBulk (fun _ => none) [RedisValue.Data [107], RedisValue.Data [97]] =
      DequeueOutcome.err (Robin.NoJobDequeued.BecauseError Robin.Error.SerdeJsonError) :=
  ((dequeue_reply_classified_amended (fun _ => none)
      [RedisValue.Data [107], RedisValue.Data [97]]).2.2 [97] "a" rfl rfl).1 rfl

/-- C5 counterexample: a stored payload that is not valid UTF-8 (the
overlong sequence `0xC0 0xAF`) makes `dequeue` panic (the `expect` on the
UTF-8 conversion) instead of returning `BecauseError`. -/
theorem dequeue_invalid_utf8_panics :
    dequeueFromBulk (fun _ => none)
        [RedisValue.Data [113], RedisValue.Data [192, 175]] =
      DequeueOutcome.panicked utf8PanicMsg := by
  rfl

/-- C5 (amended): `dequeue` panics exactly on payloads that are not valid
UTF-8 — there the `expect` aborts the process with its fixed message —
and for every reply whose payload (if any) is valid UTF-8 it never
panics, surfacing failures as `BecauseError` instead. -/
theorem dequeue_panic_only_invalid_utf8 :
    ∀ (parse : String → Option Robin.EnqueuedJob) (bulk : List RedisValue),
    (∀ msg, dequeueFromBulk parse bulk = DequeueOutcome.panicked msg →
      msg = utf8PanicMsg ∧ dataAt1InvalidUtf8 bulk = true) ∧
    (dataAt1InvalidUtf8 bulk = false →
      ∀ msg, dequeueFromBulk parse bulk ≠ DequeueOutcome.panicked msg) := by
  intro parse bulk
  constructor
  · intro msg h
    exact (dequeue_panicked_iff parse bulk msg).mp h
  · intro h msg hc
    have := ((dequeue_panicked_iff parse bulk msg).mp hc).2
    rw [h] at this
    exact absurd this (by simp)

/-- Witness for C5 (amended): on the concrete panicking reply, the
theorem pins the message and the invalid-UTF-8 payload at index 1. -/
theorem dequeue_panic_only_invalid_utf8_witness :
    utf8PanicMsg = utf8PanicMsg ∧
      dataAt1InvalidUtf8 [RedisValue.Data [107], RedisValue.Data [255]] = true :=
  (dequeue_panic_only_invalid_utf8 (fun _ => none)
      [RedisValue.Data [107], RedisValue.Data [255]]).1 utf8PanicMsg rfl

/-- C9: the timeout branch is selected exactly by the absence of an
element at index 1 of the reply — a malformed one-element reply is also
classified as `BecauseTimeout` — and the unexpected-backend-response
`BecauseError` arises exactly when an element exists at index 1 but is
not a `Data` value. -/
theorem timeout_iff_no_second_element :
    ∀ (parse : String → Option Robin.EnqueuedJob) (bulk : List RedisValue),
    (dequeueFromBulk parse bulk = DequeueOutcome.err Robin.NoJobDequeued.BecauseTimeout ↔
      bulk[1]? = none) ∧
    (∀ x : RedisValue,
      dequeueFromBulk parse [x] = DequeueOutcome.err Robin.NoJobDequeued.BecauseTimeout) ∧
    (dequeueFromBulk parse bulk =
        DequeueOutcome.err
          (Robin.NoJobDequeued.BecauseError (Robin.Error.UnknownRedisError unexpectedReplyMsg)) ↔
      secondElemNonData bulk = true) := by
  intro parse bulk
  refine ⟨⟨fun h => ?_, fun h => by simp [dequeueFromBulk, h]⟩, fun x => ?_, ⟨fun h => ?_, fun h => ?_⟩⟩
  · rcases hg : bulk[1]? with _ | v
    · rfl
    · cases v with
      | Data bs =>
        rcases hu : utf8Decode bs with _ | s
        · simp [dequeueFromBulk, hg, hu] at h
        · rcases hp : parse s with _ | job <;> simp [dequeueFromBulk, hg, hu, hp] at h
      | Nil => simp [dequeueFromBulk, hg] at h
      | Int i => simp [dequeueFromBulk, hg] at h
      | Bulk vs => simp [dequeueFromBulk, hg] at h
      | Status s => simp [dequeueFromBulk, hg] at h
      | Okay => simp [dequeueFromBulk, hg] at h
  · have : ([x] : List RedisValue)[1]? = none := rfl
    simp [dequeueFromBulk, this]
  · rcases hg : bulk[1]? with _ | v
    · simp [dequeueFromBulk, hg] at h
    · cases v with
      | Data bs =>
        rcases hu : utf8Decode bs with _ | s
        · simp [dequeueFromBulk, hg, hu] at h
        · rcases hp : parse s with _ | job <;> simp [dequeueFromBulk, hg, hu, hp] at h
      | Nil => simp [secondElemNonData, hg]
      | Int i => simp [secondElemNonData, hg]
      | Bulk vs => simp [secondElemNonData, hg]
      | Status s => simp [secondElemNonData, hg]
      | Okay => simp [secondElemNonData, hg]
  · rcases hg : bulk[1]? with _ | v
    · simp [secondElemNonData, hg] at h
    · cases v with
      | Data bs => simp [secondElemNonData, hg] at h
      | Nil => simp [dequeueFromBulk, hg]
      | Int i => simp [dequeueFromBulk, hg]
      | Bulk vs => simp [dequeueFromBulk, hg]
      | Status s => simp [dequeueFromBulk, hg]
      | Okay => simp [dequeueFromBulk, hg]

/-- Witness for C9: a malformed one-element reply is classified as the
timeout outcome. -/
theorem timeout_iff_no_second_element_witness :
    dequeueFromBulk (fun _ => none) [RedisValue.Nil] =
      DequeueOutcome.err Robin.NoJobDequeued.BecauseTimeout :=
  (timeout_iff_no_second_element (fun _ => none) [RedisValue.Nil]).1.mpr rfl

/-- The operation `enqueue` appends the encoded job at its own key. -/
theorem enqueue_apply_key (q : RedisQueue) (iden : QueueIdentifier)
    (job : Robin.EnqueuedJob) (st : Store) :
    (q.enqueue job iden st) (q.keyFor iden) =
      st (q.keyFor iden) ++ [encodeEnqueuedJob job] := by
  simp [RedisQueue.enqueue, Store.rpush]

/-- The operation `enqueueAll` appends the encoded jobs, in order, at its own key. -/
theorem enqueueAll_apply_key (q : RedisQueue) (iden : QueueIdentifier) :
    ∀ (jobs : List Robin.EnqueuedJob) (st : Store),
      (q.enqueueAll iden jobs st) (q.keyFor iden) =
        st (q.keyFor iden) ++ jobs.map encodeEnqueuedJob := by
  intro jobs
  induction jobs with
  | nil => intro st; simp [RedisQueue.enqueueAll]
  | cons j js ih =>
    intro st
    have h1 : q.enqueueAll iden (j :: js) st = q.enqueueAll iden js (q.enqueue j iden st) := rfl
    rw [h1, ih, enqueue_apply_key]
    simp

/-- On a non-empty list at the key, `dequeue` pops the head and
classifies its deserialization. -/
theorem dequeue_head (q : RedisQueue) (iden : QueueIdentifier) (st : Store)
    (v : Json) (rest : List Json) (h : st (q.keyFor iden) = v :: rest) :
    q.dequeue iden st =
      ((match decodeEnqueuedJob v with
        | some job => Except.ok job
        | none => Except.error (Robin.NoJobDequeued.BecauseError Robin.Error.SerdeJsonError)),
       fun k2 => if k2 = q.keyFor iden then rest else st k2) := by
  unfold RedisQueue.dequeue Store.blpop
  rw [h]
  rcases hd : decodeEnqueuedJob v with _ | job <;> simp [hd]

/-- Draining as many times as there are encoded jobs at the key returns
exactly those jobs, in order. -/
theorem drain_encoded (q : RedisQueue) (iden : QueueIdentifier) :
    ∀ (jobs : List Robin.EnqueuedJob) (st : Store),
      st (q.keyFor iden) = jobs.map encodeEnqueuedJob →
      (q.drain iden jobs.length st).1 = jobs.map Except.ok := by
  intro jobs
  induction jobs with
  | nil => intro st _; rfl
  | cons j js ih =>
    intro st h
    have hdeq := dequeue_head q iden st (encodeEnqueuedJob j) (js.map encodeEnqueuedJob)
      (by simpa using h)
    rw [decode_encode] at hdeq
    simp [RedisQueue.drain, hdeq]
    exact ih _ (by simp)

/-- C7: with the backing store of each key an ordered list, `enqueue`
appends the serialized job at the tail and `dequeue` removes from the
head: enqueue-then-dequeue on an empty queue returns the exact job
enqueued, and draining after any sequence of enqueues into one logical
queue returns the jobs in FIFO order. -/
theorem enqueue_dequeue_fifo :
    (∀ (q : RedisQueue) (iden : QueueIdentifier) (job : Robin.EnqueuedJob) (st : Store),
      (q.enqueue job iden st) (q.keyFor iden) =
        st (q.keyFor iden) ++ [encodeEnqueuedJob job]) ∧
    (∀ (q : RedisQueue) (iden : QueueIdentifier) (job : Robin.EnqueuedJob),
      (q.dequeue iden (q.enqueue job iden Store.empty)).1 = Except.ok job) ∧
    (∀ (q : RedisQueue) (iden : QueueIdentifier) (jobs : List Robin.EnqueuedJob),
      (q.drain iden jobs.length (q.enqueueAll iden jobs Store.empty)).1 =
        jobs.map Except.ok) := by
  refine ⟨enqueue_apply_key, fun q iden job => ?_, fun q iden jobs => ?_⟩
  · have h : (q.enqueue job iden Store.empty) (q.keyFor iden) =
        encodeEnqueuedJob job :: [] := by
      rw [enqueue_apply_key]
      simp [Store.empty]
    rw [dequeue_head q iden _ _ _ h, decode_encode]
  · exact drain_encoded q iden jobs _ (by rw [enqueueAll_apply_key]; simp [Store.empty])

/-- C8: each enqueue grows the list at the queue's key by exactly one, so
`size` after `n` enqueues on a fresh queue is `n`, and after `delete_all`
`size` is `0`. -/
theorem size_spec :
    (∀ (q : RedisQueue) (iden : QueueIdentifier) (job : Robin.EnqueuedJob) (st : Store),
      q.size iden (q.enqueue job iden st) = q.size iden st + 1) ∧
    (∀ (q : RedisQueue) (iden : QueueIdentifier) (jobs : List Robin.EnqueuedJob),
      q.size iden (q.enqueueAll iden jobs Store.empty) = jobs.length) ∧
    (∀ (q : RedisQueue) (iden : QueueIdentifier) (st : Store),
      q.size iden (q.delete_all iden st) = 0) := by
  refine ⟨fun q iden job st => ?_, fun q iden jobs => ?_, fun q iden st => ?_⟩
  · simp [RedisQueue.size, Store.llen, enqueue_apply_key]
  · simp [RedisQueue.size, Store.llen, enqueueAll_apply_key, Store.empty]
  · simp [RedisQueue.size, Store.llen, RedisQueue.delete_all, Store.del]

end Robin
